import Mathlib

/-!
Verification development for the `woqlschema` module of the
terminusdb-client-python repository (file
`terminusdb_client/woqlschema/woql_schema.py`).

The module defines identifier-generation strategies (`HashKey`,
`LexicalKey`, `ValueHashKey`, `RandomKey`), a metaclass (`TerminusClass`)
that merges field annotations and synthesises constructors, class-level
schema serialization (`DocumentTemplate._to_dict`), instance serialization
(`DocumentTemplate._obj_to_dict`), and a schema container (`WOQLSchema`).

This file embeds those operations as executable Lean definitions and proves
properties about them.  External collaborators of the module (the standard
library's `urllib.parse.quote`, `hashlib.sha256`, UTF-8 encoding and the
`copy.deepcopy` semantics for class objects) are embedded according to
their documented behaviour, since the module relies on them directly.
-/

namespace WoqlSchema

/- ## Python primitive values

`CONVERT_TYPE` (external collaborator `woql_type.CONVERT_TYPE`) recognises a
set of primitive datatypes as acceptable key values; the strategies call
`str(...)` on them.  We model the primitives used by key generation together
with Python's `str` rendering. -/

inductive PyPrim where
| pstr (s : String)
| pint (n : Int)
| pbool (b : Bool)
deriving DecidableEq

/-- Python `str()` on a recognised primitive value. -/
def PyPrim.toStr : PyPrim → String
| .pstr s => s
| .pint n => toString n
| .pbool b => if b then "True" else "False"

/- ## UTF-8 encoding (Python `str.encode("utf-8")`) -/

/-- UTF-8 encoding of a single code point, as a list of byte values. -/
def charUtf8 (c : Char) : List Nat :=
  let n := c.toNat
  if n < 128 then [n]
  else if n < 2048 then [192 + n / 64, 128 + n % 64]
  else if n < 65536 then [224 + n / 4096, 128 + (n / 64) % 64, 128 + n % 64]
  else [240 + n / 262144, 128 + (n / 4096) % 64, 128 + (n / 64) % 64, 128 + n % 64]

/-- UTF-8 encoding of a string, as a list of byte values. -/
def utf8Bytes (s : String) : List Nat :=
  s.data.foldr (fun c acc => charUtf8 c ++ acc) []

/- ## Percent-encoding (Python `urllib.parse.quote`, default `safe="/"`)

`quote` leaves ASCII letters, digits, `_ . - ~` and the default-safe `/`
unchanged and renders every other byte of the UTF-8 encoding as `%XX` with
uppercase hexadecimal digits. -/

def quoteSafeByte (b : Nat) : Bool :=
  decide ((65 ≤ b ∧ b ≤ 90) ∨ (97 ≤ b ∧ b ≤ 122) ∨ (48 ≤ b ∧ b ≤ 57) ∨
    b = 45 ∨ b = 46 ∨ b = 95 ∨ b = 126 ∨ b = 47)

def hexDigitUpper (n : Nat) : Char :=
  if n < 10 then Char.ofNat (48 + n) else Char.ofNat (55 + n)

def quoteByte (b : Nat) : List Char :=
  if quoteSafeByte b then [Char.ofNat b]
  else ['%', hexDigitUpper (b / 16), hexDigitUpper (b % 16)]

/-- `urllib.parse.quote(s)` with the default `safe="/"`. -/
def pyQuote (s : String) : String :=
  String.mk ((utf8Bytes s).foldr (fun b acc => quoteByte b ++ acc) [])

/- ## SHA-256 (Python `hashlib.sha256(...).hexdigest()`)

Executable FIPS 180-4 SHA-256 over byte lists, with 32-bit words as `Nat`
reduced modulo `2 ^ 32`. -/

def add32 (a b : Nat) : Nat := (a + b) % 4294967296

def rotr32 (n x : Nat) : Nat :=
  ((x >>> n) ||| ((x <<< (32 - n)) % 4294967296)) % 4294967296

def bsig0 (x : Nat) : Nat := rotr32 2 x ^^^ rotr32 13 x ^^^ rotr32 22 x

def bsig1 (x : Nat) : Nat := rotr32 6 x ^^^ rotr32 11 x ^^^ rotr32 25 x

def ssig0 (x : Nat) : Nat := rotr32 7 x ^^^ rotr32 18 x ^^^ (x >>> 3)

def ssig1 (x : Nat) : Nat := rotr32 17 x ^^^ rotr32 19 x ^^^ (x >>> 10)

def chf (x y z : Nat) : Nat := (x &&& y) ^^^ ((x ^^^ 4294967295) &&& z)

def maj (x y z : Nat) : Nat := (x &&& y) ^^^ (x &&& z) ^^^ (y &&& z)

/-- The 64 round constants of FIPS 180-4, written in decimal. -/
def shaK : List Nat :=
  [1116352408, 1899447441, 3049323471, 3921009573, 961987163,
   1508970993, 2453635748, 2870763221, 3624381080, 310598401,
   607225278, 1426881987, 1925078388, 2162078206, 2614888103,
   3248222580, 3835390401, 4022224774, 264347078, 604807628,
   770255983, 1249150122, 1555081692, 1996064986, 2554220882,
   2821834349, 2952996808, 3210313671, 3336571891, 3584528711,
   113926993, 338241895, 666307205, 773529912, 1294757372,
   1396182291, 1695183700, 1986661051, 2177026350, 2456956037,
   2730485921, 2820302411, 3259730800, 3345764771, 3516065817,
   3600352804, 4094571909, 275423344, 430227734, 506948616,
   659060556, 883997877, 958139571, 1322822218, 1537002063,
   1747873779, 1955562222, 2024104815, 2227730452, 2361852424,
   2428436474, 2756734187, 3204031479, 3329325298]

structure Hash8 where
  a : Nat
  b : Nat
  c : Nat
  d : Nat
  e : Nat
  f : Nat
  g : Nat
  h : Nat

/-- The initial hash value of FIPS 180-4, written in decimal. -/
def shaInit : Hash8 :=
  ⟨1779033703, 3144134277, 1013904242, 2773480762,
   1359893119, 2600822924, 528734635, 1541459225⟩

def shaRound (s : Hash8) (kw : Nat × Nat) : Hash8 :=
  let t1 := add32 s.h (add32 (bsig1 s.e) (add32 (chf s.e s.f s.g) (add32 kw.1 kw.2)))
  let t2 := add32 (bsig0 s.a) (maj s.a s.b s.c)
  ⟨add32 t1 t2, s.a, s.b, s.c, add32 s.d t1, s.e, s.f, s.g⟩

/-- Group a byte list into big-endian 32-bit words. -/
def bytesToWords : List Nat → List Nat
| b0 :: b1 :: b2 :: b3 :: rest =>
    ((((b0 <<< 8) ||| b1) <<< 8 ||| b2) <<< 8 ||| b3) :: bytesToWords rest
| _ => []

/-- Extend the 16-word message schedule by `n` further words. -/
def extendW : Nat → List Nat → List Nat
| 0, ws => ws
| n + 1, ws =>
    let t := ws.length
    let w := add32 (add32 (ssig1 (ws.getD (t - 2) 0)) (ws.getD (t - 7) 0))
      (add32 (ssig0 (ws.getD (t - 15) 0)) (ws.getD (t - 16) 0))
    extendW n (ws ++ [w])

def shaCompress (s : Hash8) (block : List Nat) : Hash8 :=
  let ws := extendW 48 (bytesToWords block)
  let r := (shaK.zip ws).foldl shaRound s
  ⟨add32 s.a r.a, add32 s.b r.b, add32 s.c r.c, add32 s.d r.d,
   add32 s.e r.e, add32 s.f r.f, add32 s.g r.g, add32 s.h r.h⟩

/-- SHA-256 padding: `0x80`, zeros to 56 mod 64, 64-bit big-endian bit length. -/
def padMessage (msg : List Nat) : List Nat :=
  let len := msg.length
  let zeros := (120 - ((len + 1) % 64)) % 64
  let bl := 8 * len
  msg ++ [128] ++ List.replicate zeros 0 ++
    [(bl >>> 56) % 256, (bl >>> 48) % 256, (bl >>> 40) % 256, (bl >>> 32) % 256,
     (bl >>> 24) % 256, (bl >>> 16) % 256, (bl >>> 8) % 256, bl % 256]

def chunksAux : Nat → List Nat → List (List Nat)
| 0, _ => []
| _, [] => []
| fuel + 1, b :: rest => ((b :: rest).take 64) :: chunksAux fuel ((b :: rest).drop 64)

/-- Split a byte list into 64-byte blocks. -/
def chunks64 (l : List Nat) : List (List Nat) := chunksAux l.length l

def hexDigitLower (n : Nat) : Char :=
  if n < 10 then Char.ofNat (48 + n) else Char.ofNat (87 + n)

def word32hex (x : Nat) : String :=
  String.mk ((List.range 8).map (fun i => hexDigitLower ((x >>> (28 - 4 * i)) % 16)))

/-- `hashlib.sha256(bytes).hexdigest()`. -/
def sha256hex (msg : List Nat) : String :=
  let s := (chunks64 (padMessage msg)).foldl shaCompress shaInit
  word32hex s.a ++ word32hex s.b ++ word32hex s.c ++ word32hex s.d ++
    word32hex s.e ++ word32hex s.f ++ word32hex s.g ++ word32hex s.h

/- ## Python errors raised by the module

Error payloads carry the (abridged) message of the corresponding Python
exception. -/

inductive PyErr where
| valueError (msg : String)
| typeError (msg : String)
| attributeError (msg : String)
deriving DecidableEq

/- ## Objects passed to `idgen`

`idgen(self, obj: Union["DocumentTemplate", dict])` receives either a
document instance or a plain dictionary.  An instance is modelled by its
class name, the optional class attribute `_base`, and the attribute map its
generated constructor installed (the constructor assigns every merged
annotation name, storing `None` for fields not supplied, so absent names
model attributes that were never set).  A dictionary is its entry map. -/

inductive KeyVal where
| prim (p : PyPrim)
| vnone
| other
deriving DecidableEq

inductive KeyObj where
| inst (clsName : String) (base : Option String) (attrs : List (String × KeyVal))
| pdict (entries : List (String × KeyVal))
deriving DecidableEq

/-- Attribute names present on every Python `dict` instance (its methods),
which make `hasattr(obj, item)` succeed for a dictionary input.  Dunder
names are omitted; no key field in this development uses them. -/
def pyDictAttrNames : List String :=
  ["clear", "copy", "fromkeys", "get", "items", "keys", "pop", "popitem",
   "setdefault", "update", "values"]

/-- Python `hasattr(obj, item)` for the two `idgen` input shapes. -/
def hasattrOn (obj : KeyObj) (item : String) : Bool :=
  match obj with
  | .inst _ _ attrs => (attrs.lookup item).isSome
  | .pdict _ => pyDictAttrNames.contains item

/-- The key-gathering step shared by `HashKey.idgen` and `LexicalKey.idgen`:

```
if hasattr(obj, item):
    key_item = ast.literal_eval(f"obj.{item}")
elif isinstance(obj, dict) and obj.get(item) is not None:
    key_item = obj.get(item)
else:
    raise ValueError(f"Cannot get {item} from {obj}")
```

`ast.literal_eval` only evaluates Python literal expressions; on the
attribute expression `obj.<item>` it always raises
`ValueError("malformed node or string: ...")`, so the `hasattr` branch can
never produce a value. -/
def getKeyItem (obj : KeyObj) (item : String) : Except PyErr KeyVal :=
  if hasattrOn obj item then .error (.valueError "malformed node or string")
  else match obj with
    | .pdict entries =>
      match entries.lookup item with
      | some .vnone => .error (.valueError "Cannot get")
      | some v => .ok v
      | none => .error (.valueError "Cannot get")
    | .inst _ _ _ => .error (.valueError "Cannot get")

/-- The `isinstance(key_item, tuple(CONVERT_TYPE.keys()))` check followed by
`str(key_item)`; non-datatype values raise
`ValueError("Keys need to be datatype object")`. -/
def keyItemStr : KeyVal → Except PyErr String
| .prim p => .ok p.toStr
| _ => .error (.valueError "Keys need to be datatype object")

/-- The `key_list` accumulated by the loop over `self._keys`. -/
def buildKeyList (keys : List String) (obj : KeyObj) : Except PyErr (List String) :=
  match keys with
  | [] => .ok []
  | k :: rest => do
    let v ← getKeyItem obj k
    let s ← keyItemStr v
    let tail ← buildKeyList rest obj
    .ok (s :: tail)

/-- The prefix-resolution chain shared by `HashKey.idgen`, `LexicalKey.idgen`
and `RandomKey.idgen`:

```
if isinstance(obj, dict) and obj.get("@type") is not None:
    prefix = obj.get("@type") + "_"
elif hasattr(obj.__class__, "_base"):
    prefix = obj.__class__._base + "_"
elif hasattr(obj.__class__, "__name__"):
    prefix = obj.__class__.__name__ + "_"
else:
    raise ValueError(f"Cannot determin prefix from {obj}")
```

For a dictionary input, `obj.__class__` is the builtin `dict`, which has no
`_base` but does have `__name__ == "dict"`; a dictionary `@type` value that
is not a string makes the `+ "_"` concatenation raise `TypeError`.  Every
Python class has `__name__`, so the final `raise` is unreachable. -/
def idPrefixOf : KeyObj → Except PyErr String
| .pdict entries =>
  match entries.lookup "@type" with
  | some (.prim (.pstr t)) => .ok (t ++ "_")
  | some .vnone => .ok ("dict" ++ "_")
  | none => .ok ("dict" ++ "_")
  | some _ => .error (.typeError "can only concatenate str (not \"...\") to str")
| .inst _ (some b) _ => .ok (b ++ "_")
| .inst clsName none _ => .ok (clsName ++ "_")

/-- `LexicalKey.idgen`: prefix plus `quote("_".join(key_list))`. -/
def LexicalKey.idgen (keys : List String) (obj : KeyObj) : Except PyErr String := do
  let keyList ← buildKeyList keys obj
  let p ← idPrefixOf obj
  .ok (p ++ pyQuote (String.intercalate "_" keyList))

/-- `HashKey.idgen`: prefix plus
`sha256(quote("_".join(key_list)).encode("utf-8")).hexdigest()`. -/
def HashKey.idgen (keys : List String) (obj : KeyObj) : Except PyErr String := do
  let keyList ← buildKeyList keys obj
  let p ← idPrefixOf obj
  .ok (p ++ sha256hex (utf8Bytes (pyQuote (String.intercalate "_" keyList))))

/-- `RandomKey.idgen`: prefix plus `uuid4().hex`; the fresh random token is
passed in explicitly. -/
def RandomKey.idgen (uuidHex : String) (obj : KeyObj) : Except PyErr String := do
  let p ← idPrefixOf obj
  .ok (p ++ uuidHex)

/- ## Key strategies as a datatype

`HashKey`/`LexicalKey` instances store `_keys`; `ValueHashKey` and
`RandomKey` store nothing.  `ValueHashKey` declares no `idgen` method at all
(its body is commented out in the source), so invoking `idgen` on it raises
`AttributeError`. -/

inductive KeyStrategy where
| hash (keys : List String)
| lexical (keys : List String)
| valueHash
| random
deriving DecidableEq

/-- The class attribute `at_type` of each strategy class. -/
def KeyStrategy.atType : KeyStrategy → String
| .hash _ => "Hash"
| .lexical _ => "Lexical"
| .valueHash => "ValueHash"
| .random => "Random"

/-- `hasattr(strategy, "_keys")`: only `HashKey`/`LexicalKey` store keys. -/
def KeyStrategy.keysOf : KeyStrategy → Option (List String)
| .hash ks => some ks
| .lexical ks => some ks
| _ => none

/-- `hasattr(strategy, "idgen")`: true for every strategy class except
`ValueHashKey`, whose `idgen` is commented out in the source. -/
def KeyStrategy.hasIdgen : KeyStrategy → Bool
| .valueHash => false
| _ => true

/-- Invoking `strategy.idgen(obj)`.  On `ValueHashKey` the attribute lookup
itself fails with `AttributeError` (the spec's `UnimplementedStrategyError`).
`uuidHex` supplies the random token consumed by `RandomKey`. -/
def invokeIdgen (k : KeyStrategy) (uuidHex : String) (obj : KeyObj) :
    Except PyErr String :=
  match k with
  | .hash ks => HashKey.idgen ks obj
  | .lexical ks => LexicalKey.idgen ks obj
  | .valueHash => .error (.attributeError "ValueHashKey object has no attribute idgen")
  | .random => RandomKey.idgen uuidHex obj

/- ## Annotation merging (`TerminusClass.__init__`)

```
if "__annotations__" in nmspc:
    cls._annotations = copy(nmspc["__annotations__"])
else:
    cls._annotations = {}
for parent in bases:
    base_annotations = parent._annotations if hasattr(parent, "_annotations") else {}
    cls._annotations.update(base_annotations)
```

Annotation maps are insertion-ordered dictionaries from field name to a
declared-type tag (the tags themselves are opaque here).  `dict.update`
overwrites an existing key's value in place (keeping its position) and
appends new keys at the end. -/

def dictUpdate (d entries : List (String × String)) : List (String × String) :=
  entries.foldl
    (fun acc kv =>
      if (acc.lookup kv.1).isSome then
        acc.map (fun p => if p.1 = kv.1 then kv else p)
      else acc ++ [kv])
    d

/-- The merged `_annotations` of a class: its own declared annotations,
then `dict.update` with each parent's annotation map in declaration order. -/
def mergeAnnotations (own : List (String × String))
    (parentMaps : List (List (String × String))) : List (String × String) :=
  parentMaps.foldl dictUpdate own

/- ## Document classes

A declared class, as the serializers see it: `__name__`, the names along
`__mro__` (starting at the class itself), the optional class attributes
`_base`, `_subdocument`, `_abstract`, the `_key` strategy instance
(`DocumentTemplate` installs `RandomKey()` as the default, so `_key` is
always present), the optional rendered `@documentation` content (produced by
the external `numpydoc.ClassDoc` collaborator when the class has a
docstring), and the merged `_annotations` with each declared type already
rendered through the external `woql_type.to_woql_type` mapping. -/

structure DocInfo where
  comment : String
  props : List (String × String)
deriving DecidableEq

structure PyClass where
  name : String
  mro : List String
  base : Option String
  subdocument : Option PyPrim
  abstract : Option PyPrim
  key : KeyStrategy
  documentation : Option DocInfo
  annotations : List (String × String)
deriving DecidableEq

/- ## Instance field values

A field of a live instance holds `None`, a recognised primitive, an
enumeration member (carrying its `str()` form, i.e. its `_value_`), a Python
list, or another document instance (its class, its optional `_id` attribute
and its own field map).  Field maps and lists are given as dedicated mutual
inductives so that the serializer below is structurally recursive. -/

mutual
inductive FieldValue where
| prim (p : PyPrim)
| vnone
| enumMember (value : String)
| vlist (xs : FVList)
| doc (cls : PyClass) (id : Option String) (fields : FMap)

inductive FVList where
| nil
| cons (head : FieldValue) (tail : FVList)

inductive FMap where
| nil
| cons (name : String) (val : FieldValue) (tail : FMap)
end

/- ## Serialized output

JSON-like values produced by `_to_dict` / `_obj_to_dict`.  `raw v` stands
for a Python object placed into the result dictionary unchanged (the code
does this for non-subdocument instances without `_id`, and for list elements
that have no `_obj_to_dict` method). -/

inductive JVal where
| jstr (s : String)
| jint (n : Int)
| jbool (b : Bool)
| jnull
| jarr (xs : List JVal)
| jobj (entries : List (String × JVal))
| raw (v : FieldValue)

/-- A Python primitive placed into a result dictionary. -/
def primToJ : PyPrim → JVal
| .pstr s => .jstr s
| .pint n => .jint n
| .pbool b => .jbool b

/-- The `"@id"` entry of `_obj_to_dict`, present when the instance has an
`_id` attribute. -/
def idEntries : Option String → List (String × JVal)
| some i => [("@id", JVal.jstr i)]
| none => []

/- ## Instance serialization (`DocumentTemplate._obj_to_dict`)

```
result = {"@type": str(self.__class__)}
if hasattr(self, "_id"):
    result["@id"] = self._id
for item in self._annotations.keys():
    if hasattr(self, item):
        the_item = eval(f"self.{item}")
        if the_item is not None:
            if hasattr(the_item.__class__, "_subdocument") or (
                hasattr(the_item.__class__, "_key")
                and not hasattr(the_item.__class__._key, "idgen")
            ):
                result[item] = the_item._obj_to_dict()
            elif hasattr(the_item, "_id"):
                result[item] = {"@id": the_item._id, "@type": "@id"}
            elif isinstance(the_item, list):
                ...
            else:
                if isinstance(the_item, Enum):
                    result[item] = str(the_item)
                else:
                    result[item] = the_item
return result
```

The generated constructor assigns every merged annotation name, so the
`hasattr(self, item)` guard holds and the loop walks exactly the instance's
field map; `str(self.__class__)` is the class name via
`TerminusClass.__repr__`.  Every `DocumentTemplate` instance has a `_key`
class attribute (default `RandomKey()`), so the first branch fires exactly
when the value's class has `_subdocument` (any value) or its key strategy
lacks `idgen` (only `ValueHashKey`). -/

mutual
/-- The dictionary value emitted for one non-`None` field value. -/
def entryVal : FieldValue → JVal
| .prim p => primToJ p
| .vnone => .jnull
| .enumMember v => .jstr v
| .vlist xs => .jarr (listElems xs)
| .doc cls id fields =>
  if cls.subdocument.isSome || !cls.key.hasIdgen then
    .jobj (("@type", JVal.jstr cls.name) :: idEntries id ++ fieldsEntries fields)
  else
    match id with
    | some i => .jobj [("@id", JVal.jstr i), ("@type", JVal.jstr "@id")]
    | none => .raw (.doc cls id fields)

/-- Serialization of a list field: elements with an `_obj_to_dict` method
(document instances) are serialized recursively; all other elements are
appended unchanged. -/
def listElems : FVList → List JVal
| .nil => []
| .cons x tail =>
  (match x with
   | .doc cls id fields =>
     JVal.jobj (("@type", JVal.jstr cls.name) :: idEntries id ++ fieldsEntries fields)
   | .prim p => primToJ p
   | .vnone => JVal.jnull
   | v => JVal.raw v) :: listElems tail

/-- The field entries of `_obj_to_dict`: one entry per non-`None` field, in
annotation order; `None` fields are skipped. -/
def fieldsEntries : FMap → List (String × JVal)
| .nil => []
| .cons k v tail =>
  match v with
  | .vnone => fieldsEntries tail
  | w => (k, entryVal w) :: fieldsEntries tail
end

/-- The full result of `_obj_to_dict` on an instance of `cls` with optional
`_id` and the given field map. -/
def objToDict (cls : PyClass) (id : Option String) (fields : FMap) :
    List (String × JVal) :=
  ("@type", JVal.jstr cls.name) :: idEntries id ++ fieldsEntries fields

/- ## Class serialization (`DocumentTemplate._to_dict`) -/

/-- Python dict assignment to an existing key: the value is replaced, the
key keeps its position. -/
def setEntryJ (l : List (String × JVal)) (k : String) (v : JVal) :
    List (String × JVal) :=
  l.map (fun p => if p.1 = k then (k, v) else p)

/-- `parents[1 : parents.index("DocumentTemplate")]` — the `@inherits`
list.  (Python `list.index` raises if the name is absent; every class
serialized by the module descends from `DocumentTemplate`.) -/
def inheritsSlice (mro : List String) : List String :=
  (mro.take (mro.indexOf "DocumentTemplate")).drop 1

/-- The `@key` dictionary derived from the configured strategy: type tag
plus `@fields` exactly when the strategy instance stores `_keys`. -/
def keyDictEntry (k : KeyStrategy) : JVal :=
  match k.keysOf with
  | some ks => .jobj [("@type", .jstr k.atType), ("@fields", .jarr (ks.map JVal.jstr))]
  | none => .jobj [("@type", .jstr k.atType)]

/-- `DocumentTemplate._to_dict`:

```
result = {"@type": "Class", "@id": cls.__name__}
if cls.__base__.__name__ != "DocumentTemplate":
    parents = list(map(lambda x: x.__name__, cls.__mro__))
    result["@inherits"] = parents[1 : parents.index("DocumentTemplate")]
elif cls.__base__.__name__ == "TaggedUnion":
    result["@type"] = "TaggedUnion"
if cls.__doc__: result["@documentation"] = {...}
if hasattr(cls, "_base"): result["@base"] = cls._base
if hasattr(cls, "_subdocument"):
    result["@subdocument"] = cls._subdocument
    result["@key"] = {"@type": "Random"}
if hasattr(cls, "_abstract"): result["@abstract"] = cls._abstract
if hasattr(cls, "_key") and not hasattr(cls, "_subdocument"):
    result["@key"] = {...}
for attr, attr_type in cls._annotations.items(): result[attr] = ...
```

`cls.__base__.__name__` is the second name of the `__mro__`; the `elif` is
only reached when it equals `"DocumentTemplate"`, which makes its
`== "TaggedUnion"` test unsatisfiable.  `hasattr(cls, "_key")` always holds
(the `DocumentTemplate` default). -/
def typePart (c : PyClass) : List (String × JVal) :=
  let start := [("@type", JVal.jstr "Class"), ("@id", JVal.jstr c.name)]
  if (c.mro.drop 1).head? ≠ some "DocumentTemplate" then
    start ++ [("@inherits", JVal.jarr ((inheritsSlice c.mro).map JVal.jstr))]
  else if (c.mro.drop 1).head? = some "TaggedUnion" then
    setEntryJ start "@type" (JVal.jstr "TaggedUnion")
  else start

def docPart (c : PyClass) : List (String × JVal) :=
  match c.documentation with
  | some d => [("@documentation", JVal.jobj
      [("@comment", .jstr d.comment),
       ("@properties", .jobj (d.props.map (fun p => (p.1, JVal.jstr p.2))))])]
  | none => []

def basePart (c : PyClass) : List (String × JVal) :=
  match c.base with
  | some b => [("@base", JVal.jstr b)]
  | none => []

def subdocPart (c : PyClass) : List (String × JVal) :=
  match c.subdocument with
  | some v => [("@subdocument", primToJ v),
      ("@key", JVal.jobj [("@type", JVal.jstr "Random")])]
  | none => []

def abstractPart (c : PyClass) : List (String × JVal) :=
  match c.abstract with
  | some v => [("@abstract", primToJ v)]
  | none => []

def keyPart (c : PyClass) : List (String × JVal) :=
  if c.subdocument.isNone then [("@key", keyDictEntry c.key)] else []

def annotationsPart (c : PyClass) : List (String × JVal) :=
  c.annotations.map (fun p => (p.1, JVal.jstr p.2))

/-- The statements of `_to_dict` run in sequence, each appending entries
whose keys are fresh (except for the unreachable `"@type"` overwrite inside
`typePart`), so the resulting dictionary is the concatenation of the parts
in statement order. -/
def toDict (c : PyClass) : List (String × JVal) :=
  typePart c ++ docPart c ++ basePart c ++ subdocPart c ++ abstractPart c ++
    keyPart c ++ annotationsPart c

/-- First-match lookup in a result dictionary (Python dicts have unique
keys, so the first match is the entry). -/
def lookupEntry (l : List (String × JVal)) (k : String) : Option JVal :=
  (l.lookup k)

/- ## Schema container (`WOQLSchema`)

The container holds a set of registered class objects.  Class objects are
mutable Python values; to reason about mutation and sharing, the container
is modelled as holding references (indices) into a store of class
descriptors, and `WOQLSchema.copy` — which is `return deepcopy(self)` — is
modelled per the `copy` module's documented semantics: `deepcopy` recurses
into the instance dictionary and the registration set, producing a fresh
container and a fresh set, but copies class objects atomically, returning
them unchanged. -/

structure ClassStore where
  classes : List PyClass
deriving DecidableEq

structure WOQLSchemaObj where
  object : List Nat
deriving DecidableEq

/-- `WOQLSchema.copy`, i.e. `deepcopy(self)`: a fresh container whose
registration set contains the same class objects (references). -/
def WOQLSchemaObj.copy (s : WOQLSchemaObj) : WOQLSchemaObj := ⟨s.object⟩

/-- `WOQLSchema.add_obj` (set insertion). -/
def WOQLSchemaObj.add_obj (s : WOQLSchemaObj) (i : Nat) : WOQLSchemaObj :=
  if i ∈ s.object then s else ⟨s.object ++ [i]⟩

/-- Mutating the metadata of the class object referenced by `i`. -/
def setClass (st : ClassStore) (i : Nat) (c : PyClass) : ClassStore :=
  ⟨st.classes.set i c⟩

/-- The class metadata reachable from a container's registered references,
under a given store. -/
def viewClasses (st : ClassStore) (s : WOQLSchemaObj) : List (Option PyClass) :=
  s.object.map (fun i => st.classes.get? i)

/-- View a field map as an ordinary association list. -/
def FMap.toList : FMap → List (String × FieldValue)
| .nil => []
| .cons k v t => (k, v) :: t.toList

deriving instance DecidableEq for Except

deriving instance DecidableEq for FieldValue

/- ## Amended prefix-resolution rule

The claim about prefix resolution does not match the code; this definition
states the rule the code actually implements, in the words of the amended
claim: a dictionary uses its string `@type` entry when present, else its
class's name, which for a plain dictionary is `"dict"`; an instance uses
`_base` when set, else its class name.  No input fails. -/

def amendedPrefixRule : KeyObj → String
| .pdict entries =>
  match entries.lookup "@type" with
  | some (.prim (.pstr t)) => t ++ "_"
  | _ => "dict_"
| .inst clsName base _ => base.getD clsName ++ "_"

/-- Dictionaries whose `@type` entry, when present, is `None` or a string
(a non-string `@type` makes the code raise `TypeError` instead). -/
def wfAtType : KeyObj → Prop
| .pdict entries => ∀ v, entries.lookup "@type" = some v →
    v = .vnone ∨ ∃ s, v = KeyVal.prim (.pstr s)
| .inst _ _ _ => True

/- ## Concrete inputs used in the theorems -/

def annLeeInst : KeyObj :=
  .inst "Person" none
    [("name", .prim (.pstr "Ann Lee")), ("age", .prim (.pint 30))]

def annLeeDict : KeyObj :=
  .pdict [("@type", .prim (.pstr "Person")), ("name", .prim (.pstr "Ann Lee")),
    ("age", .prim (.pint 30))]

def plainNameDict : KeyObj := .pdict [("name", .prim (.pstr "Ann"))]

def typedNameDict : KeyObj :=
  .pdict [("name", .prim (.pstr "Ann")), ("@type", .prim (.pstr "Person"))]

def suspectUnionCls : PyClass :=
  ⟨"Suspect", ["Suspect", "TaggedUnion", "DocumentTemplate", "object"],
    none, none, none, .random, none, [("flavour", "xsd:string")]⟩

def snippetCls : PyClass :=
  ⟨"Snippet", ["Snippet", "DocumentTemplate", "object"], none, none, none,
    .valueHash, none, [("text", "xsd:string")]⟩

def addressCls : PyClass :=
  ⟨"Address", ["Address", "DocumentTemplate", "object"], none,
    some (.pbool false), none, .lexical ["street"], none,
    [("street", "xsd:string")]⟩

def personCls : PyClass :=
  ⟨"Person", ["Person", "DocumentTemplate", "object"], none, none, none,
    .lexical ["name"], none, [("name", "xsd:string"), ("age", "xsd:integer")]⟩

def personRetyped : PyClass :=
  { personCls with annotations := [("name", "xsd:integer"), ("age", "xsd:integer")] }

def annFields : FMap :=
  .cons "name" (.prim (.pstr "Ann")) (.cons "age" .vnone .nil)

def schemaOne : WOQLSchemaObj := ⟨[0]⟩

def storeOne : ClassStore := ⟨[personCls]⟩

set_option maxRecDepth 400000

/- ## Generic association-list lemmas -/

theorem lookupEntry_eq_none {l : List (String × JVal)} {k : String}
    (h : k ∉ l.map Prod.fst) : lookupEntry l k = none := by
  induction l with
  | nil => rfl
  | cons p t ih =>
    simp only [List.map_cons, List.mem_cons] at h
    push_neg at h
    simp only [lookupEntry, List.lookup]
    rw [show (k == p.1) = false from beq_eq_false_iff_ne.mpr h.1]
    exact ih h.2

theorem lookupEntry_append_left {l1 : List (String × JVal)} {k : String}
    {v : JVal} (l2 : List (String × JVal)) (h : lookupEntry l1 k = some v) :
    lookupEntry (l1 ++ l2) k = some v := by
  induction l1 with
  | nil => simp [lookupEntry, List.lookup] at h
  | cons p t ih =>
    simp only [lookupEntry, List.lookup] at h ⊢
    cases hb : (k == p.1) with
    | true => simpa [hb] using h
    | false => simp only [hb] at h ⊢; exact ih h

theorem lookupEntry_append_right {l1 : List (String × JVal)} {k : String}
    (l2 : List (String × JVal)) (h : k ∉ l1.map Prod.fst) :
    lookupEntry (l1 ++ l2) k = lookupEntry l2 k := by
  induction l1 with
  | nil => rfl
  | cons p t ih =>
    simp only [List.map_cons, List.mem_cons] at h
    push_neg at h
    simp only [lookupEntry, List.lookup, List.cons_append]
    rw [show (k == p.1) = false from beq_eq_false_iff_ne.mpr h.1]
    exact ih h.2

/- ## Structure of the `_to_dict` parts -/

theorem typePart_eq (c : PyClass) :
    typePart c = [("@type", JVal.jstr "Class"), ("@id", JVal.jstr c.name)] ∨
    typePart c = [("@type", JVal.jstr "Class"), ("@id", JVal.jstr c.name),
      ("@inherits", JVal.jarr ((inheritsSlice c.mro).map JVal.jstr))] := by
  simp only [typePart]
  by_cases h : c.mro[1]? = some "DocumentTemplate"
  · left
    simp [h]
  · right
    simp [h]

theorem not_mem_typePart_keys (c : PyClass) (k : String) (h1 : k ≠ "@type")
    (h2 : k ≠ "@id") (h3 : k ≠ "@inherits") :
    k ∉ (typePart c).map Prod.fst := by
  rcases typePart_eq c with h | h <;> simp [h, h1, h2, h3]

theorem not_mem_docPart_keys (c : PyClass) (k : String)
    (h : k ≠ "@documentation") : k ∉ (docPart c).map Prod.fst := by
  cases hd : c.documentation <;> simp [docPart, hd, h]

theorem not_mem_basePart_keys (c : PyClass) (k : String) (h : k ≠ "@base") :
    k ∉ (basePart c).map Prod.fst := by
  cases hb : c.base <;> simp [basePart, hb, h]

theorem not_mem_abstractPart_keys (c : PyClass) (k : String)
    (h : k ≠ "@abstract") : k ∉ (abstractPart c).map Prod.fst := by
  cases ha : c.abstract <;> simp [abstractPart, ha, h]

theorem annotationsPart_keys (c : PyClass) :
    (annotationsPart c).map Prod.fst = c.annotations.map Prod.fst := by
  simp [annotationsPart, List.map_map]

/- ## Structure of `fieldsEntries` -/

theorem fieldsEntries_cons_none (k : String) (t : FMap) :
    fieldsEntries (.cons k .vnone t) = fieldsEntries t := rfl

theorem fieldsEntries_cons_ne (k : String) (v : FieldValue) (t : FMap)
    (h : v ≠ .vnone) :
    fieldsEntries (.cons k v t) = (k, entryVal v) :: fieldsEntries t := by
  cases v with
  | vnone => exact absurd rfl h
  | prim p => rfl
  | enumMember s => rfl
  | vlist xs => rfl
  | doc cls id f => rfl

theorem fieldsEntries_keys_subset : ∀ fs : FMap,
    (fieldsEntries fs).map Prod.fst ⊆ fs.toList.map Prod.fst
| .nil => by simp [fieldsEntries]
| .cons k v t => by
  have ih := fieldsEntries_keys_subset t
  by_cases hv : v = .vnone
  · subst hv
    rw [fieldsEntries_cons_none]
    refine ih.trans ?_
    intro a ha
    simp only [FMap.toList, List.map_cons, List.mem_cons]
    exact Or.inr ha
  · rw [fieldsEntries_cons_ne k v t hv]
    intro a ha
    simp only [List.map_cons, List.mem_cons] at ha
    simp only [FMap.toList, List.map_cons, List.mem_cons]
    rcases ha with h | h
    · exact Or.inl h
    · exact Or.inr (ih h)

theorem count_keys_fieldsEntries : ∀ (fs : FMap) (k : String) (v : FieldValue),
    (fs.toList.map Prod.fst).Nodup → (k, v) ∈ fs.toList →
    ((fieldsEntries fs).map Prod.fst).count k = if v = .vnone then 0 else 1
| .nil, k, v, _, hmem => by simp [FMap.toList] at hmem
| .cons k' v' t, k, v, hnd, hmem => by
  simp only [FMap.toList, List.map_cons, List.nodup_cons] at hnd
  obtain ⟨hk', hndt⟩ := hnd
  simp only [FMap.toList, List.mem_cons] at hmem
  by_cases hv' : v' = .vnone
  · subst hv'
    rw [fieldsEntries_cons_none]
    rcases hmem with heq | hmem'
    · injection heq with h1 h2
      subst h1
      subst h2
      rw [if_pos rfl]
      exact List.count_eq_zero.mpr (fun hc => hk' (fieldsEntries_keys_subset t hc))
    · exact count_keys_fieldsEntries t k v hndt hmem'
  · rw [fieldsEntries_cons_ne k' v' t hv']
    rcases hmem with heq | hmem'
    · injection heq with h1 h2
      subst h1
      subst h2
      rw [if_neg hv']
      simp only [List.map_cons, List.count_cons_self]
      rw [List.count_eq_zero.mpr (fun hc => hk' (fieldsEntries_keys_subset t hc))]
    · have hk : k ∈ t.toList.map Prod.fst := List.mem_map_of_mem Prod.fst hmem'
      have hne : k ≠ k' := fun he => hk' (he ▸ hk)
      simp only [List.map_cons]
      rw [List.count_cons_of_ne hne, count_keys_fieldsEntries t k v hndt hmem']

/- ## Claim C1 -/

/-- C1: the claim says the annotation merge starts from the declaring body's
own fields and adds only ancestor fields not already present, so the
subclass's own declared type wins on a name collision.  The code instead
runs `cls._annotations.update(parent._annotations)`, which overwrites the
subclass's entry with the ancestor's: merging own `name ↦ xsd:integer` with
ancestor `{name ↦ xsd:string, age ↦ xsd:integer}` keeps the ancestor's
`xsd:string` for `name`, contradicting the claim (and the module's
evident intent). -/
theorem c1_annotation_merge_bug :
    mergeAnnotations [("name", "xsd:integer")]
        [[("name", "xsd:string"), ("age", "xsd:integer")]] =
      [("name", "xsd:string"), ("age", "xsd:integer")] ∧
    (mergeAnnotations [("name", "xsd:integer")]
        [[("name", "xsd:string"), ("age", "xsd:integer")]]).lookup "name" ≠
      some "xsd:integer" :=
  ⟨rfl, by decide⟩

/- ## Claim C2 -/

/-- C2: for a document instance of a class with a `Lexical` key, the claim
says the identifier is the class prefix plus the percent-encoded joined key
values, e.g. `Person_Ann%20Lee` for `Person(name="Ann Lee", age=30)`.  The
code reads instance attributes with `ast.literal_eval(f"obj.{name}")`,
which cannot evaluate attribute expressions, so on the instance the
computation raises `ValueError("malformed node or string")` instead.  The
dictionary path (which reads values with `dict.get`) produces exactly the
claimed identifier, confirming that formula is the intended algorithm. -/
theorem c2_lexical_idgen_bug :
    LexicalKey.idgen ["name"] annLeeInst =
      .error (.valueError "malformed node or string") ∧
    LexicalKey.idgen ["name"] annLeeDict = .ok "Person_Ann%20Lee" :=
  ⟨rfl, by decide⟩

/- ## Claim C3 -/

/-- C3: the claim covers document instances and dictionaries with a `Hash`
key.  On an instance the code raises `ValueError("malformed node or
string")` (same `ast.literal_eval` defect as C2) rather than returning an
identifier.  On a dictionary the identifier is exactly
`<prefix>_` + hex(SHA-256(quote(values joined by "_")))` as claimed, and
reordering the configured keys changes the identifier. -/
theorem c3_hash_idgen_bug :
    HashKey.idgen ["name", "age"] annLeeInst =
      .error (.valueError "malformed node or string") ∧
    HashKey.idgen ["name", "age"] annLeeDict =
      .ok ("Person_" ++
        sha256hex (utf8Bytes (pyQuote (String.intercalate "_" ["Ann Lee", "30"])))) ∧
    HashKey.idgen ["age", "name"] annLeeDict ≠
      HashKey.idgen ["name", "age"] annLeeDict :=
  ⟨rfl, rfl, by decide⟩

/- ## Claim C4 -/

/-- C4 counterexample: the claim says the prefix is `_base`, else the class
name, else (for dictionaries) `@type`, and that a `PrefixResolutionError` is
raised exactly when none of the three is available.  On a plain dictionary
with no `@type` none of the claim's sources is available, yet the code
succeeds with the prefix `dict` (the dictionary's Python class name); and on
a dictionary with `@type` the code uses the `@type` entry first, not last.
Both evaluations contradict the claimed rule. -/
theorem c4_prefix_order_counterexample :
    LexicalKey.idgen ["name"] plainNameDict = .ok "dict_Ann" ∧
    LexicalKey.idgen ["name"] typedNameDict = .ok "Person_Ann" :=
  ⟨by decide, by decide⟩

/-- C4 (amended): the prefix is resolved by checking, in order: a
dictionary's non-`None` `@type` entry; else the class's `_base` attribute;
else the class's `__name__` (which for a plain dictionary is `"dict"`).
Since every Python class has a `__name__`, the failure branch is
unreachable and resolution never fails (for dictionaries whose `@type`
entry, when present, is `None` or a string). -/
theorem c4_prefix_resolution_amended (obj : KeyObj) (h : wfAtType obj) :
    idPrefixOf obj = .ok (amendedPrefixRule obj) := by
  cases obj with
  | inst clsName base attrs => cases base <;> rfl
  | pdict entries =>
    cases hl : entries.lookup "@type" with
    | none => simp [idPrefixOf, amendedPrefixRule, hl]
    | some v =>
      rcases h v hl with hv | ⟨s, hv⟩ <;> subst hv <;>
        simp [idPrefixOf, amendedPrefixRule, hl]

/-- C4 witness: the amended rule applied to a plain dictionary without
`@type`: resolution succeeds with the `dict` prefix. -/
theorem c4_prefix_resolution_amended_witness :
    wfAtType plainNameDict ∧
    idPrefixOf plainNameDict = .ok (amendedPrefixRule plainNameDict) := by
  have hw : wfAtType plainNameDict := by
    intro v hl
    simp [plainNameDict, List.lookup] at hl
  exact ⟨hw, c4_prefix_resolution_amended plainNameDict hw⟩

/- ## Claim C5 -/

/-- C5: the claim says `_to_dict` emits `@type: "TaggedUnion"` when the
class's nearest non-template ancestor is `TaggedUnion`.  The code tests
`__base__.__name__ == "TaggedUnion"` in an `elif` that is only reached when
`__base__.__name__ == "DocumentTemplate"`, so the branch can never fire:
the `@type` entry is `"Class"` for every class, including a direct subclass
of `TaggedUnion`. -/
theorem c5_type_entry_always_class :
    (∀ c : PyClass, lookupEntry (toDict c) "@type" = some (JVal.jstr "Class")) ∧
    lookupEntry (toDict suspectUnionCls) "@type" = some (JVal.jstr "Class") := by
  have huniv : ∀ c : PyClass,
      lookupEntry (toDict c) "@type" = some (JVal.jstr "Class") := by
    intro c
    rcases typePart_eq c with h | h <;>
      simp [toDict, h, lookupEntry, List.lookup]
  exact ⟨huniv, huniv _⟩

/- ## Claim C6 -/

/-- C6 counterexample: the claim says every non-sub-document field value
carrying an assigned identifier is emitted as an `@id` reference.  A field
value whose class is not a sub-document but uses the `ValueHash` strategy
(which has no `idgen`) is inlined by the first serializer branch even though
it has `_id = "X"`. -/
theorem c6_valuehash_reference_counterexample :
    entryVal (.doc snippetCls (some "X") .nil) =
      .jobj [("@type", JVal.jstr "Snippet"), ("@id", JVal.jstr "X")] ∧
    entryVal (.doc snippetCls (some "X") .nil) ≠
      .jobj [("@id", JVal.jstr "X"), ("@type", JVal.jstr "@id")] := by
  refine ⟨rfl, ?_⟩
  intro h
  rw [show entryVal (.doc snippetCls (some "X") .nil) =
      .jobj [("@type", JVal.jstr "Snippet"), ("@id", JVal.jstr "X")] from rfl] at h
  injection h with h1
  injection h1 with h2 h3
  injection h2 with h4 h5
  exact absurd h4 (by decide)

/-- C6 (amended): a field value of a sub-document class is always inlined
via its own recursive serialization, even when it carries an assigned
identifier; a field value of a non-sub-document class whose key strategy
provides `idgen` (every strategy except `ValueHash`) and that carries an
assigned identifier is emitted as the reference
`{"@id": ..., "@type": "@id"}`. -/
theorem c6_inline_vs_reference_amended (cls : PyClass) (id : Option String)
    (fields : FMap) :
    (cls.subdocument.isSome = true →
      entryVal (.doc cls id fields) = .jobj (objToDict cls id fields)) ∧
    (cls.subdocument = none → cls.key.hasIdgen = true →
      ∀ i : String, id = some i →
        entryVal (.doc cls id fields) =
          .jobj [("@id", JVal.jstr i), ("@type", JVal.jstr "@id")]) := by
  constructor
  · intro h
    simp [entryVal, objToDict, h]
  · intro hsub hk i hi
    subst hi
    simp [entryVal, hsub, hk]

/-- C6 witness: a sub-document instance with `_id` is inlined; a plain
`Lexical`-keyed instance with `_id` becomes a reference. -/
theorem c6_inline_vs_reference_amended_witness :
    addressCls.subdocument.isSome = true ∧
    entryVal (.doc addressCls (some "A1") .nil) =
      .jobj (objToDict addressCls (some "A1") .nil) ∧
    personCls.subdocument = none ∧
    personCls.key.hasIdgen = true ∧
    entryVal (.doc personCls (some "P1") .nil) =
      .jobj [("@id", JVal.jstr "P1"), ("@type", JVal.jstr "@id")] := by
  refine ⟨rfl, ?_, rfl, rfl, ?_⟩
  · exact (c6_inline_vs_reference_amended addressCls (some "A1") .nil).1 rfl
  · exact (c6_inline_vs_reference_amended personCls (some "P1") .nil).2 rfl rfl "P1" rfl

/- ## Claim C8 -/

/-- C8 counterexample: the claim says `WOQLSchema.copy` yields a deep,
independent copy of all contained class metadata.  `deepcopy` copies class
objects atomically, so the copy's registered references are the very same
class objects; mutating the class reached through the copy's first
registered reference changes what the original container sees. -/
theorem c8_copy_shared_metadata_counterexample :
    (schemaOne.copy).object = schemaOne.object ∧
    viewClasses (setClass storeOne ((schemaOne.copy).object.headD 0) personRetyped)
        schemaOne ≠
      viewClasses storeOne schemaOne :=
  ⟨rfl, by decide⟩

/-- C8 (amended): the copy is a fresh container whose registration set
holds the same class objects as the original, so under every store —
including any store obtained by mutating a class's metadata — the copy and
the original see identical class metadata; only the container and its set
are fresh. -/
theorem c8_copy_amended (s : WOQLSchemaObj) (st : ClassStore) (i : Nat)
    (c : PyClass) :
    (s.copy).object = s.object ∧
    viewClasses st s.copy = viewClasses st s ∧
    viewClasses (setClass st i c) s.copy = viewClasses (setClass st i c) s :=
  ⟨rfl, rfl, rfl⟩

/- ## Claim C9 -/

/-- C9: invoking identifier computation on the `ValueHash` strategy always
fails: `ValueHashKey` declares no `idgen` (its body is commented out), so
the attribute lookup raises — the spec's `UnimplementedStrategyError` — and
the strategy performs no identifier computation. -/
theorem c9_valuehash_idgen_error (uuidHex : String) (obj : KeyObj) :
    invokeIdgen .valueHash uuidHex obj =
      .error (.attributeError "ValueHashKey object has no attribute idgen") ∧
    KeyStrategy.hasIdgen .valueHash = false :=
  ⟨rfl, rfl⟩

/- ## Claim C7 -/

/-- C7: `to_document` omits every declared field whose current value is
`None` (no entry at all) and includes every declared field whose current
value is not `None` exactly once. -/
theorem c7_to_document_none_omitted (cls : PyClass) (id : Option String)
    (fields : FMap) (k : String) (v : FieldValue)
    (hnd : (fields.toList.map Prod.fst).Nodup)
    (hmem : (k, v) ∈ fields.toList)
    (ht : k ≠ "@type") (hi : k ≠ "@id") :
    (v = .vnone → k ∉ (objToDict cls id fields).map Prod.fst) ∧
    (v ≠ .vnone → ((objToDict cls id fields).map Prod.fst).count k = 1) := by
  have hcount := count_keys_fieldsEntries fields k v hnd hmem
  have hid : ∀ a, a ∈ (idEntries id).map Prod.fst → a = "@id" := by
    cases id <;> simp [idEntries]
  have hidc : ((idEntries id).map Prod.fst).count k = 0 := by
    cases id with
    | none => simp [idEntries]
    | some i =>
      simp only [idEntries, List.map_cons, List.map_nil, List.count_cons,
        List.count_nil]
      rw [show (("@id" : String) == k) = false from
        beq_eq_false_iff_ne.mpr (Ne.symm hi)]
      simp
  constructor
  · intro hv
    subst hv
    rw [if_pos rfl] at hcount
    have hnotin : k ∉ (fieldsEntries fields).map Prod.fst :=
      List.count_eq_zero.mp hcount
    intro hk
    simp only [objToDict, List.map_cons, List.map_append, List.mem_cons,
      List.mem_append] at hk
    rcases hk with (h | h) | h
    · exact ht h
    · exact hi (hid k h)
    · exact hnotin h
  · intro hv
    rw [if_neg hv] at hcount
    simp only [objToDict, List.map_cons, List.map_append, List.count_cons,
      List.count_append]
    rw [hidc, hcount, show (("@type" : String) == k) = false from
      beq_eq_false_iff_ne.mpr (Ne.symm ht)]
    simp

/-- C7 witness: on a concrete `Person` instance with `name = "Ann"` and
`age = None`, the serialized document contains `name` exactly once and has
no `age` entry. -/
theorem c7_to_document_none_omitted_witness :
    (annFields.toList.map Prod.fst).Nodup ∧
    ("name", FieldValue.prim (.pstr "Ann")) ∈ annFields.toList ∧
    ((objToDict personCls none annFields).map Prod.fst).count "name" = 1 ∧
    ("age" : String) ∉ (objToDict personCls none annFields).map Prod.fst := by
  have hnd : (annFields.toList.map Prod.fst).Nodup := by decide
  refine ⟨hnd, by decide, ?_, ?_⟩
  · exact (c7_to_document_none_omitted personCls none annFields "name"
      (.prim (.pstr "Ann")) hnd (by decide) (by decide) (by decide)).2 (by decide)
  · exact (c7_to_document_none_omitted personCls none annFields "age"
      .vnone hnd (by decide) (by decide) (by decide)).1 rfl

/- ## Claim C10 -/

/-- C10: defining `_subdocument` with any value — `False` included — makes
the class a sub-document for every operation: `_to_dict` emits
`@subdocument` (with the stored value) and forces `@key` to
`{"@type": "Random"}` while suppressing the configured strategy's `@key`
entry (the `@key` key occurs exactly once), and `_obj_to_dict` inlines
instances of the class; only complete absence of the attribute yields
non-sub-document treatment (`@subdocument` absent, `@key` from the
configured strategy). -/
theorem c10_subdocument_any_value (c : PyClass)
    (hkeys : "@key" ∉ c.annotations.map Prod.fst)
    (hsubkeys : "@subdocument" ∉ c.annotations.map Prod.fst) :
    (∀ v : PyPrim, c.subdocument = some v →
      lookupEntry (toDict c) "@subdocument" = some (primToJ v) ∧
      lookupEntry (toDict c) "@key" =
        some (JVal.jobj [("@type", JVal.jstr "Random")]) ∧
      ((toDict c).map Prod.fst).count "@key" = 1 ∧
      ∀ (id : Option String) (fields : FMap),
        entryVal (.doc c id fields) = .jobj (objToDict c id fields)) ∧
    (c.subdocument = none →
      lookupEntry (toDict c) "@subdocument" = none ∧
      lookupEntry (toDict c) "@key" = some (keyDictEntry c.key)) := by
  have htp1 : "@subdocument" ∉ (typePart c).map Prod.fst :=
    not_mem_typePart_keys c _ (by decide) (by decide) (by decide)
  have htp2 : "@key" ∉ (typePart c).map Prod.fst :=
    not_mem_typePart_keys c _ (by decide) (by decide) (by decide)
  have hdp1 : "@subdocument" ∉ (docPart c).map Prod.fst :=
    not_mem_docPart_keys c _ (by decide)
  have hdp2 : "@key" ∉ (docPart c).map Prod.fst :=
    not_mem_docPart_keys c _ (by decide)
  have hbp1 : "@subdocument" ∉ (basePart c).map Prod.fst :=
    not_mem_basePart_keys c _ (by decide)
  have hbp2 : "@key" ∉ (basePart c).map Prod.fst :=
    not_mem_basePart_keys c _ (by decide)
  have hap1 : "@subdocument" ∉ (abstractPart c).map Prod.fst :=
    not_mem_abstractPart_keys c _ (by decide)
  have hap2 : "@key" ∉ (abstractPart c).map Prod.fst :=
    not_mem_abstractPart_keys c _ (by decide)
  constructor
  · intro v hv
    have hsp : subdocPart c = [("@subdocument", primToJ v),
        ("@key", JVal.jobj [("@type", JVal.jstr "Random")])] := by
      simp [subdocPart, hv]
    have hkp : keyPart c = [] := by simp [keyPart, hv]
    refine ⟨?_, ?_, ?_, ?_⟩
    · simp only [toDict, List.append_assoc]
      rw [lookupEntry_append_right _ htp1, lookupEntry_append_right _ hdp1,
        lookupEntry_append_right _ hbp1, hsp]
      exact lookupEntry_append_left _ (by simp [lookupEntry, List.lookup])
    · simp only [toDict, List.append_assoc]
      rw [lookupEntry_append_right _ htp2, lookupEntry_append_right _ hdp2,
        lookupEntry_append_right _ hbp2, hsp]
      exact lookupEntry_append_left _ (by simp [lookupEntry, List.lookup])
    · have ca : ((annotationsPart c).map Prod.fst).count "@key" = 0 := by
        rw [annotationsPart_keys]
        exact List.count_eq_zero.mpr hkeys
      simp only [toDict, List.map_append, List.count_append, hsp, hkp]
      rw [List.count_eq_zero.mpr htp2, List.count_eq_zero.mpr hdp2,
        List.count_eq_zero.mpr hbp2, List.count_eq_zero.mpr hap2, ca]
      simp
    · intro id fields
      simp [entryVal, objToDict, hv]
  · intro hv
    have hsp : subdocPart c = [] := by simp [subdocPart, hv]
    have hkp : keyPart c = [("@key", keyDictEntry c.key)] := by
      simp [keyPart, hv]
    constructor
    · simp only [toDict, List.append_assoc]
      rw [lookupEntry_append_right _ htp1, lookupEntry_append_right _ hdp1,
        lookupEntry_append_right _ hbp1, hsp]
      simp only [List.nil_append]
      rw [lookupEntry_append_right _ hap1, hkp,
        lookupEntry_append_right _ (by simp)]
      exact lookupEntry_eq_none (by rw [annotationsPart_keys]; exact hsubkeys)
    · simp only [toDict, List.append_assoc]
      rw [lookupEntry_append_right _ htp2, lookupEntry_append_right _ hdp2,
        lookupEntry_append_right _ hbp2, hsp]
      simp only [List.nil_append]
      rw [lookupEntry_append_right _ hap2, hkp]
      exact lookupEntry_append_left _ (by simp [lookupEntry, List.lookup])

/-- C10 witness: `Address` defines `_subdocument = False` and a configured
`Lexical` key, yet `_to_dict` emits `@subdocument: false` with
`@key: {"@type": "Random"}` occurring exactly once. -/
theorem c10_subdocument_any_value_witness :
    ("@key" : String) ∉ addressCls.annotations.map Prod.fst ∧
    addressCls.subdocument = some (.pbool false) ∧
    lookupEntry (toDict addressCls) "@subdocument" = some (JVal.jbool false) ∧
    lookupEntry (toDict addressCls) "@key" =
      some (JVal.jobj [("@type", JVal.jstr "Random")]) ∧
    ((toDict addressCls).map Prod.fst).count "@key" = 1 := by
  have h := (c10_subdocument_any_value addressCls (by decide) (by decide)).1
    (.pbool false) rfl
  exact ⟨by decide, rfl, h.1, h.2.1, h.2.2.1⟩

end WoqlSchema
